import Mathlib

/-!
Shallow embedding of the authorization/session core of the ai4edu API
service: the endpoint access matrix (`utils/endpoint_access_map.py`), the
authorization middleware helpers (`middleware/authorization.py`), the token
codec (`utils/token_utils.py`), the JWT payload validator
(`common/JWTValidator.py`) and the refresh-token store (`common/UserAuth.py`),
together with theorems settling the specification claims about them.

Python dictionaries with a fixed key set are embedded as structures whose
fields are listed in the source's key order; `dict.items()` iteration is
embedded as the corresponding list of key/value pairs; `str.split(sep)` and
`sep.join(...)` on a one-character separator are embedded by the executable
functions `pySplit` and `pyJoin` below, which follow Python's semantics
(splitting keeps empty pieces; splitting the empty string yields `[""]`).
-/

namespace Ai4edu

/-- Auxiliary recursion for `pySplit`: walks the character list, accumulating
the current piece in reverse in `acc`, emitting a piece at each separator. -/
def splitCharAux (sep : Char) : List Char → List Char → List String
  | [], acc => [String.mk acc.reverse]
  | c :: cs, acc =>
    if c = sep then String.mk acc.reverse :: splitCharAux sep cs []
    else splitCharAux sep cs (c :: acc)

/-- Model of Python `s.split(sep)` for a one-character separator `sep`:
every occurrence of `sep` is a split point and empty pieces are kept, so
`pySplit sep ""` is `[""]`. -/
def pySplit (sep : Char) (s : String) : List String :=
  splitCharAux sep s.data []

/-- Model of Python `sep.join(pieces)`. -/
def pyJoin (sep : String) : List String → String
  | [] => ""
  | [s] => s
  | s :: rest => s ++ sep ++ pyJoin sep rest

/-- The character U+007B (opening curly bracket), which marks a dynamic
segment in an endpoint pattern. -/
def braceChar : Char := Char.ofNat 123

/-- One value of the access matrix (`utils/endpoint_access_map.py`): the
per-person-type booleans of an endpoint entry, fields in the source's key
order `student`, `teacher`, `system_admin`, `workspace_admin`. -/
structure AccessRoles where
  student : Bool
  teacher : Bool
  system_admin : Bool
  workspace_admin : Bool
  deriving DecidableEq, Repr

/-- Embedding of Python `access_roles.get(role, False)` on an access-matrix
entry: keys other than the four `PersonType` literals fall back to `False`. -/
def AccessRoles.get (r : AccessRoles) (key : String) : Bool :=
  if key = "student" then r.student
  else if key = "teacher" then r.teacher
  else if key = "system_admin" then r.system_admin
  else if key = "workspace_admin" then r.workspace_admin
  else false

/-- The access matrix type `AccessMap = dict[str, dict[PersonType, bool]]`,
embedded as an association list in the source's insertion order. -/
abbrev AccessMap := List (String × AccessRoles)

/-- The static table `endpoint_access_map` of `utils/endpoint_access_map.py`;
each entry is `(path, ⟨student, teacher, system_admin, workspace_admin⟩)`. -/
def endpoint_access_map : AccessMap :=
  [("/ai4edu_testing", ⟨false, false, true, false⟩),
   ("/agent/{agent_id}", ⟨true, true, true, false⟩),
   ("/agent/get/{agent_id}", ⟨true, true, true, false⟩),
   ("/agents/add_agent", ⟨false, true, true, false⟩),
   ("/agents/delete_agent", ⟨false, true, true, false⟩),
   ("/agents/update_agent", ⟨false, true, true, false⟩),
   ("/agents/agents", ⟨true, true, true, false⟩),
   ("/agents/agent/{agent_id}", ⟨true, true, true, false⟩),
   ("/feedback/rating", ⟨true, true, true, false⟩),
   ("/threads/get_thread/{thread_id}", ⟨true, true, true, false⟩),
   ("/threads/get_thread_list", ⟨true, true, true, false⟩),
   ("/sso", ⟨true, true, true, false⟩),
   ("/stream_chat", ⟨true, true, true, false⟩),
   ("/get_tts_file", ⟨true, true, true, false⟩),
   ("/get_temp_stt_auth_code", ⟨true, true, true, false⟩),
   ("/get_new_thread", ⟨true, true, true, false⟩),
   ("/access/get_user_list", ⟨false, true, true, false⟩),
   ("/workspace/create_workspace", ⟨false, true, true, true⟩),
   ("/workspace/set_workspace_status", ⟨false, true, true, true⟩),
   ("/workspace/add_users_via_csv", ⟨false, true, true, true⟩),
   ("/workspace/add_users_json", ⟨false, true, true, true⟩),
   ("/workspace/student_join_workspace", ⟨true, true, true, true⟩),
   ("/workspace/delete_user_from_workspace", ⟨false, true, true, true⟩),
   ("/workspace/set_user_role_with_user_id", ⟨false, false, true, true⟩),
   ("/workspace/get_workspace_list", ⟨false, false, true, true⟩),
   ("/workspace/set_workspace_admin_role", ⟨false, false, false, true⟩),
   ("/workspace/delete_workspace/{workspace}", ⟨false, false, true, true⟩),
   ("/workspace/get_user_workspace_details", ⟨false, false, true, true⟩),
   ("/workspace/edit_workspace", ⟨false, false, true, true⟩),
   ("/test_query", ⟨true, true, true, false⟩),
   ("/test_query/history", ⟨true, true, true, false⟩),
   ("/test_query/clear_history", ⟨true, true, true, false⟩),
   ("/upload_file", ⟨true, true, true, false⟩),
   ("/get_presigned_url_for_file", ⟨true, true, true, false⟩),
   ("/ping", ⟨true, true, true, false⟩),
   ("/openapi.json", ⟨true, false, true, false⟩)]

/-- The dictionary built by `extract_role` in `middleware/authorization.py`:
its keys are the strings `"admin"`, `"teacher"`, `"student"` (note: not the
`PersonType` literals used by the access matrix). -/
structure Role where
  admin : Bool
  teacher : Bool
  student : Bool
  deriving DecidableEq, Repr

/-- Embedding of `user_access.items()` for the dictionary built by
`extract_role`, in the source's insertion order. -/
def Role.items (r : Role) : List (String × Bool) :=
  [("admin", r.admin), ("teacher", r.teacher), ("student", r.student)]

/-- The inner loop of `has_access`: `for role, has_role in user_access.items():
if has_role and access_roles.get(role, False): return True`. -/
def roleAllows (access_roles : AccessRoles) (user_access : Role) : Bool :=
  user_access.items.any fun p => p.2 && access_roles.get p.1

/-- The segment comparison loop of `has_access`: the `for i in range(...)`
loop with `break`, whose `else` clause fires when every pattern segment not
containing a brace equals the corresponding path segment. -/
def segMatches (pattern_parts path_parts : List String) : Bool :=
  (pattern_parts.zip path_parts).all fun pq =>
    pq.1.data.contains braceChar || pq.1 == pq.2

/-- Dynamic-pattern matching as performed inside `has_access`: split pattern
and path on `/`, require equal segment counts, then compare the non-dynamic
segments. -/
def pattern_matches (endpoint_pattern current_path : String) : Bool :=
  let pattern_parts := pySplit '/' endpoint_pattern
  let path_parts := pySplit '/' current_path
  pattern_parts.length == path_parts.length && segMatches pattern_parts path_parts

/-- One iteration of the dynamic-endpoint scan in `has_access`: the pattern
must contain a brace, match the path, and its entry must grant one of the
user's roles. -/
def patternGrants (user_access : Role) (current_path : String)
    (entry : String × AccessRoles) : Bool :=
  entry.1.data.contains braceChar
    && pattern_matches entry.1 current_path
    && roleAllows entry.2 user_access

/-- Embedding of the Python `current_path in endpoint_access_map` test plus
`endpoint_access_map[current_path]`: first value bound to the key. -/
def lookupMap (m : AccessMap) (key : String) : Option AccessRoles :=
  match m with
  | [] => none
  | (k, v) :: rest => if k = key then some v else lookupMap rest key

/-- Embedding of `has_access` from `middleware/authorization.py`: exact key
lookup first; otherwise scan the dynamic patterns in order and admit on the
first one that matches and grants a role; else deny. -/
def has_access (m : AccessMap) (user_access : Role) (current_path : String) :
    Bool :=
  match lookupMap m current_path with
  | some access_roles => roleAllows access_roles user_access
  | none => m.any (patternGrants user_access current_path)

/-- Embedding of `extract_actual_path` from `middleware/authorization.py`:
split on `/`, drop the first four pieces, rejoin with `/` after a leading
slash. -/
def extract_actual_path (path : String) : String :=
  let path_parts := pySplit '/' path
  let actual_path_parts := path_parts.drop 4
  "/" ++ pyJoin "/" actual_path_parts

/-- The typed claims structure `UserJWTContent` of `common/JWTValidator.py`;
the `workspace_role` dictionary is embedded as an association list and the
`iat`/`exp` datetimes as their numeric Unix timestamps. -/
structure UserJWTContent where
  user_id : Int
  first_name : String
  last_name : String
  student_id : String
  workspace_role : List (String × String)
  system_admin : Bool
  workspace_admin : Bool
  email : String
  iat : Nat
  exp : Nat
  deriving DecidableEq, Repr

/-- Embedding of `extract_role` from `middleware/authorization.py`: on `None`
all three flags are false; otherwise `student` starts true, `admin` is set
from `system_admin`, and the workspace-role values are scanned for
`"teacher"` (the `break` makes the loop equivalent to an existence check). -/
def extract_role (access_token_load : Option UserJWTContent) : Role :=
  match access_token_load with
  | none => { admin := false, teacher := false, student := false }
  | some c =>
    { admin := c.system_admin
      teacher := c.workspace_role.any fun p => p.2 == "teacher"
      student := true }

/-- The `Tokens` TypedDict of `middleware/authorization.py`. -/
structure Tokens where
  access_token : Option String
  refresh_token : Option String
  deriving DecidableEq, Repr

/-- Model of Python `int(...)` applied to a decimal digit string, the only
shape the `user_id` claim can carry: optional leading minus sign, then
decimal digits; anything else raises `ValueError` (`none`). -/
def decDigitsAux : List Char → Nat → Option Nat
  | [], acc => some acc
  | c :: cs, acc =>
    if c.isDigit then decDigitsAux cs (acc * 10 + (c.toNat - 48)) else none

/-- Model of Python `int(s)` for a string `s`. -/
def pyInt (s : String) : Option Int :=
  match s.data with
  | [] => none
  | '-' :: ds =>
    if ds.isEmpty then none
    else (decDigitsAux ds 0).map fun n => -(n : Int)
  | ds => (decDigitsAux ds 0).map fun n => (n : Int)

/-- One iteration of the pair loop in `extract_token`: Python's
`key, value = pair.split("=")` unpacks exactly two pieces and raises
`ValueError` otherwise, so a pair whose split has any other length makes the
whole call fail (`none`). -/
def processPair (st : Tokens) (pair : String) : Option Tokens :=
  if pair.data.contains '=' then
    match pySplit '=' pair with
    | [key, value] =>
      if key = "access" then
        some { st with access_token := if value = "" then none else some value }
      else if key = "refresh" then
        some { st with refresh_token := if value = "" then none else some value }
      else some st
    | _ => none
  else some st

/-- Embedding of `extract_token` from `middleware/authorization.py`: strip
the `Bearer ` prefix, split on `&`, and fold the key/value pairs; `none`
models an uncaught `ValueError` escaping the function. -/
def extract_token (auth_header : String) : Option Tokens :=
  if "Bearer ".data.isPrefixOf auth_header.data then
    let token_string := String.mk (auth_header.data.drop 7)
    let token_pairs := pySplit '&' token_string
    token_pairs.foldlM processPair ⟨none, none⟩
  else some ⟨none, none⟩

/-- The payload dictionary handled by the token codec and by `parse_jwt`:
each field is `some` when the corresponding key is present in the dictionary.
`iat`/`exp` carry numeric timestamps as in the JWT wire format, and the
values are typed as the only issuer (`jwt_generator`) produces them. -/
structure JwtDict where
  user_id : Option String
  email : Option String
  first_name : Option String
  last_name : Option String
  student_id : Option String
  workspace_role : Option (List (String × String))
  system_admin : Option Bool
  workspace_admin : Option Bool
  iat : Option Nat
  exp : Option Nat
  deriving DecidableEq, Repr

/-- The payload dictionary literally built by `jwt_generator` in
`utils/token_utils.py`: the nine listed keys and no `workspace_admin` key;
`iat` is the issue time and `exp` is thirty minutes (1800 seconds) later. -/
def jwt_payload (user_id first_name last_name student_id : String)
    (workspace_role : List (String × String)) (system_admin : Bool)
    (email : String) (now : Nat) : JwtDict :=
  { user_id := some user_id
    email := some email
    first_name := some first_name
    last_name := some last_name
    student_id := some student_id
    workspace_role := some workspace_role
    system_admin := some system_admin
    workspace_admin := none
    iat := some now
    exp := some (now + 1800) }

/-- Model of the JWT wire format seen through RS256 verification: an input
string is empty, or fails signature verification (malformed or tampered), or
is the signed encoding of a payload dictionary. Signing is injective and a
signed token is never the empty string. -/
inductive TokenString where
  | empty : TokenString
  | garbage (s : String) : TokenString
  | signed (payload : JwtDict) : TokenString
  deriving DecidableEq, Repr

/-- Outcome of `jwt.decode` as used in `parse_token`. -/
inductive DecodeResult where
  | ok (payload : JwtDict)
  | expired
  | invalid
  deriving DecidableEq, Repr

/-- Model of `jwt.decode(token, public_key, algorithms=["RS256"])`: malformed
or badly signed input raises `InvalidTokenError`; a validly signed payload
whose `exp` claim is not after the current time raises
`ExpiredSignatureError`; otherwise the payload is returned. -/
def jwt_decode (t : TokenString) (now : Nat) : DecodeResult :=
  match t with
  | .empty => .invalid
  | .garbage _ => .invalid
  | .signed p =>
    match p.exp with
    | some e => if e ≤ now then .expired else .ok p
    | none => .ok p

/-- Embedding of `jwt.encode` on the payload built by `jwt_generator` in
`utils/token_utils.py`. -/
def jwt_generator (user_id first_name last_name student_id : String)
    (workspace_role : List (String × String)) (system_admin : Bool)
    (email : String) (now : Nat) : TokenString :=
  .signed (jwt_payload user_id first_name last_name student_id workspace_role
    system_admin email now)

/-- The dictionary returned by `parse_token` in `utils/token_utils.py`:
`success`, `status_code`, `message`, and the decoded `data` on success. -/
structure ParseResult where
  success : Bool
  status_code : Nat
  message : String
  data : Option JwtDict
  deriving DecidableEq, Repr

/-- Embedding of `parse_token` from `utils/token_utils.py`: empty input gives
the missing-token result 401000; `ExpiredSignatureError` gives 401001;
`InvalidTokenError` gives 401002; otherwise the decoded payload is returned
with status 200. -/
def parse_token (jwt_token : TokenString) (now : Nat) : ParseResult :=
  if jwt_token = .empty then
    { success := false, status_code := 401000, message := "Token missing",
      data := none }
  else
    match jwt_decode jwt_token now with
    | .ok decoded =>
      { success := true, status_code := 200, message := "", data := some decoded }
    | .expired =>
      { success := false, status_code := 401001, message := "Token has expired",
        data := none }
    | .invalid =>
      { success := false, status_code := 401002, message := "Invalid token",
        data := none }

/-- Embedding of `parse_jwt` from `common/JWTValidator.py`: every field is
read by indexing the dictionary inside a `try`, so a single missing key (a
`KeyError`), or a `user_id` that `int(...)` cannot parse, makes the function
return `None`. -/
def parse_jwt (user_jwt_content : JwtDict) : Option UserJWTContent := do
  let uid_raw ← user_jwt_content.user_id
  let uid ← pyInt uid_raw
  let first_name ← user_jwt_content.first_name
  let last_name ← user_jwt_content.last_name
  let student_id ← user_jwt_content.student_id
  let workspace_role ← user_jwt_content.workspace_role
  let system_admin ← user_jwt_content.system_admin
  let workspace_admin ← user_jwt_content.workspace_admin
  let email ← user_jwt_content.email
  let iat ← user_jwt_content.iat
  let exp ← user_jwt_content.exp
  some ⟨uid, first_name, last_name, student_id, workspace_role, system_admin,
    workspace_admin, email, iat, exp⟩

/-- Outcome of one pass of `AuthorizationMiddleware.dispatch`. -/
inductive DispatchResult where
  | whitelisted
  | admitted (user_jwt_content : JwtDict)
  | rejectedParse (status_code : Nat) (message : String)
  | rejectedUnauthorized
  deriving DecidableEq, Repr

/-- Embedding of `AuthorizationMiddleware.dispatch` from
`middleware/authorization.py`, after header extraction: whitelisted logical
paths bypass the gate; a present access token is parsed, and on success the
role set is extracted from the validated claims and checked against the
access matrix; `admitted` carries the decoded payload attached to
`request.state.user_jwt_content`. The whitelist value lives in
`utils/whitelist.py`, which is not part of this snapshot, so it is a
parameter here. -/
def dispatch (wl : List String) (raw_path : String)
    (access_token : Option TokenString) (now : Nat) : DispatchResult :=
  let path := extract_actual_path raw_path
  if path ∈ wl then .whitelisted
  else
    match access_token with
    | some tok =>
      let pr := parse_token tok now
      if pr.success ∧ pr.data ≠ none then
        match pr.data with
        | some d =>
          if has_access endpoint_access_map (extract_role (parse_jwt d)) path then
            .admitted d
          else .rejectedUnauthorized
        | none => .rejectedUnauthorized
      else .rejectedParse pr.status_code pr.message
    | none => .rejectedUnauthorized

/-- A row of the `refresh_tokens` table as created by `gen_refresh_token`
(`common/UserAuth.py`); times are numeric timestamps and the opaque UUID
values are strings. -/
structure RefreshTokenRow where
  token_id : String
  user_id : Nat
  token : String
  created_at : Nat
  expire_at : Nat
  issued_token_count : Nat
  deriving DecidableEq, Repr

/-- The fields of a `users` row that `gen_access_token` reads to assemble
claims. -/
structure UserRow where
  user_id : Nat
  first_name : String
  last_name : String
  email : String
  student_id : String
  workspace_role : List (String × String)
  system_admin : Bool
  deriving DecidableEq, Repr

/-- The relational state visible to `UserAuth`: the `users` and
`refresh_tokens` tables. -/
structure DbState where
  users : List UserRow
  refresh_tokens : List RefreshTokenRow
  deriving DecidableEq, Repr

/-- Embedding of `UserAuth.gen_refresh_token`: inserts a fresh credential row
for the user expiring fifteen days (1296000 seconds) later, with issued count
zero, and returns its opaque value. -/
def gen_refresh_token (st : DbState) (user_id : Nat)
    (token token_id : String) (now : Nat) : String × DbState :=
  (token,
   { st with
       refresh_tokens := st.refresh_tokens ++
         [{ token_id := token_id, user_id := user_id, token := token,
            created_at := now, expire_at := now + 1296000,
            issued_token_count := 0 }] })

/-- The ORM update performed by `gen_access_token` on success: the row object
returned by `.first()` — the first row whose `token` column matches — gets
its `issued_token_count` incremented. -/
def incrementFirst (tok : String) : List RefreshTokenRow → List RefreshTokenRow
  | [] => []
  | r :: rest =>
    if r.token = tok then
      { r with issued_token_count := r.issued_token_count + 1 } :: rest
    else r :: incrementFirst tok rest

/-- Embedding of `UserAuth.gen_access_token`: look up the first row matching
the refresh-token value; if present and strictly unexpired, read the owning
user's current row, mint a session token from those fields via
`jwt_generator`, and increment the credential's issued count. Every failure
path (unknown or expired credential, missing user row — an `AttributeError`
caught by the outer `except`) returns `none` (Python `False`) and leaves the
state unchanged (rollback). -/
def gen_access_token (st : DbState) (refresh_token : String) (now : Nat) :
    Option TokenString × DbState :=
  match st.refresh_tokens.find? (fun r => r.token == refresh_token) with
  | some refresh_token_obj =>
    if now < refresh_token_obj.expire_at then
      match st.users.find? (fun u => u.user_id == refresh_token_obj.user_id) with
      | some user =>
        (some (jwt_generator (toString refresh_token_obj.user_id)
            user.first_name user.last_name user.student_id
            user.workspace_role user.system_admin user.email now),
         { st with refresh_tokens := incrementFirst refresh_token st.refresh_tokens })
      | none => (none, st)
    else (none, st)
  | none => (none, st)

/-- Embedding of `UserAuth.user_logout_all_devices`: every row of the user
whose expiry is strictly after `now` gets its expiry set to `now`; nothing is
ever deleted. -/
def user_logout_all_devices (st : DbState) (user_id : Nat) (now : Nat) :
    DbState :=
  { st with
      refresh_tokens := st.refresh_tokens.map fun r =>
        if r.user_id = user_id ∧ now < r.expire_at then
          { r with expire_at := now }
        else r }

theorem splitCharAux_ne_nil (sep : Char) (xs acc : List Char) :
    splitCharAux sep xs acc ≠ [] := by
  induction xs generalizing acc with
  | nil => simp [splitCharAux]
  | cons c cs ih =>
    by_cases h : c = sep <;> simp [splitCharAux, h, ih]

theorem splitCharAux_append (sep : Char) (xs ys acc : List Char) :
    splitCharAux sep (xs ++ sep :: ys) acc
      = splitCharAux sep xs acc ++ splitCharAux sep ys [] := by
  induction xs generalizing acc with
  | nil => simp [splitCharAux]
  | cons c cs ih =>
    by_cases h : c = sep <;> simp [splitCharAux, h, ih]

theorem splitCharAux_of_not_mem (sep : Char) (xs acc : List Char)
    (h : sep ∉ xs) :
    splitCharAux sep xs acc = [String.mk (acc.reverse ++ xs)] := by
  induction xs generalizing acc with
  | nil => simp [splitCharAux]
  | cons c cs ih =>
    have hc : c ≠ sep := fun hc => h (hc ▸ List.mem_cons_self c cs)
    have hcs : sep ∉ cs := fun hm => h (List.mem_cons_of_mem c hm)
    simp [splitCharAux, hc, ih _ hcs]

theorem pySplit_append_sep (sep : Char) (a b : String) :
    pySplit sep (a ++ String.mk [sep] ++ b) = pySplit sep a ++ pySplit sep b := by
  have : (a ++ String.mk [sep] ++ b).data = a.data ++ sep :: b.data := by
    simp [String.data_append]
  simp [pySplit, this, splitCharAux_append]

theorem pySplit_of_not_mem (sep : Char) (a : String) (h : sep ∉ a.data) :
    pySplit sep a = [a] := by
  simp [pySplit, splitCharAux_of_not_mem sep a.data [] h]

theorem pyJoin_cons_of_ne_nil (sep s : String) (l : List String) (h : l ≠ []) :
    pyJoin sep (s :: l) = s ++ sep ++ pyJoin sep l := by
  cases l with
  | nil => exact absurd rfl h
  | cons t ts => rfl

theorem pyJoin_splitCharAux (sep : Char) (xs acc : List Char) :
    pyJoin (String.mk [sep]) (splitCharAux sep xs acc)
      = String.mk (acc.reverse ++ xs) := by
  induction xs generalizing acc with
  | nil => simp [splitCharAux, pyJoin]
  | cons c cs ih =>
    by_cases h : c = sep
    · subst h
      rw [splitCharAux, if_pos rfl,
        pyJoin_cons_of_ne_nil _ _ _ (splitCharAux_ne_nil c cs []), ih []]
      show String.mk ((acc.reverse ++ [c]) ++ (List.reverse [] ++ cs))
        = String.mk (acc.reverse ++ c :: cs)
      simp
    · rw [splitCharAux, if_neg h, ih (c :: acc)]
      simp

theorem pyJoin_pySplit (sep : Char) (s : String) :
    pyJoin (String.mk [sep]) (pySplit sep s) = s := by
  simpa using pyJoin_splitCharAux sep s.data []

theorem find?_decomp {α : Type} (l : List α) (p : α → Bool) (a : α)
    (h : l.find? p = some a) :
    ∃ l1 l2, l = l1 ++ a :: l2 ∧ ∀ x ∈ l1, p x = false := by
  induction l with
  | nil => simp [List.find?] at h
  | cons b bs ih =>
    by_cases hb : p b
    · refine ⟨[], bs, ?_, by simp⟩
      simp [List.find?, hb] at h
      simp [h]
    · simp only [List.find?, Bool.not_eq_true] at hb
      rw [List.find?, hb] at h
      obtain ⟨l1, l2, hsplit, hclean⟩ := ih h
      exact ⟨b :: l1, l2, by simp [hsplit], by
        intro x hx
        rcases List.mem_cons.mp hx with hx | hx
        · exact hx ▸ hb
        · exact hclean x hx⟩

theorem incrementFirst_decomp (tok : String) (l1 l2 : List RefreshTokenRow)
    (row : RefreshTokenRow) (hrow : row.token = tok)
    (hclean : ∀ x ∈ l1, x.token ≠ tok) :
    incrementFirst tok (l1 ++ row :: l2)
      = l1 ++ { row with issued_token_count := row.issued_token_count + 1 } :: l2 := by
  induction l1 with
  | nil => simp [incrementFirst, hrow]
  | cons b bs ih =>
    have hb : b.token ≠ tok := hclean b (List.mem_cons_self b bs)
    simp [incrementFirst, if_neg hb,
      ih fun x hx => hclean x (List.mem_cons_of_mem b hx)]

theorem splitCharAux_cons_self (sep : Char) (xs acc : List Char) :
    splitCharAux sep (sep :: xs) acc
      = String.mk acc.reverse :: splitCharAux sep xs [] := by
  simp [splitCharAux]

/-- C5: `extract_role` maps `None` to the all-false role set; on present
claims, `admin` is true iff the `system_admin` claim is true, `teacher` is
true iff some workspace-role value equals `"teacher"`, and `student` is
unconditionally true. -/
theorem extract_role_spec :
    extract_role none = ⟨false, false, false⟩ ∧
    ∀ c : UserJWTContent,
      (extract_role (some c)).admin = c.system_admin ∧
      ((extract_role (some c)).teacher = true ↔
        ∃ p ∈ c.workspace_role, p.2 = "teacher") ∧
      (extract_role (some c)).student = true := by
  refine ⟨rfl, fun c => ⟨rfl, ?_, rfl⟩⟩
  simp [extract_role, List.any_eq_true]

/-- Witness for C5: a user who is teacher in one workspace gets the
`teacher` flag. -/
theorem extract_role_spec_witness :
    (extract_role (some ⟨7, "Ada", "Lovelace", "al1", [("ws1", "teacher")],
      false, false, "ada@case.edu", 0, 1800⟩)).teacher = true :=
  (extract_role_spec.2 ⟨7, "Ada", "Lovelace", "al1", [("ws1", "teacher")],
      false, false, "ada@case.edu", 0, 1800⟩).2.1.mpr
    ⟨("ws1", "teacher"), by simp, rfl⟩

/-- C7: `extract_actual_path` drops exactly the first four `/`-separated
pieces of the raw path — the empty piece before the leading slash and the
three prefix segments, e.g. `/v1/dev/admin` — and returns `/` followed by
the remaining segments rejoined with `/`. -/
theorem extract_actual_path_spec (s1 s2 s3 rest : String)
    (h1 : '/' ∉ s1.data) (h2 : '/' ∉ s2.data) (h3 : '/' ∉ s3.data) :
    extract_actual_path ("/" ++ s1 ++ "/" ++ s2 ++ "/" ++ s3 ++ "/" ++ rest)
      = "/" ++ rest := by
  have e1 : ("/" ++ s1 ++ "/" ++ s2 ++ "/" ++ s3 ++ "/" ++ rest).data
      = '/' :: (s1.data ++ '/' :: (s2.data ++ '/' :: (s3.data ++ '/' :: rest.data))) := by
    simp [String.data_append, show ("/" : String).data = ['/'] from rfl]
  have key : pySplit '/' ("/" ++ s1 ++ "/" ++ s2 ++ "/" ++ s3 ++ "/" ++ rest)
      = "" :: s1 :: s2 :: s3 :: pySplit '/' rest := by
    simp only [pySplit, e1, splitCharAux_cons_self, splitCharAux_append,
      splitCharAux_of_not_mem _ _ _ h1, splitCharAux_of_not_mem _ _ _ h2,
      splitCharAux_of_not_mem _ _ _ h3]
    rfl
  rw [extract_actual_path, key]
  show "/" ++ pyJoin "/" (pySplit '/' rest) = "/" ++ rest
  rw [pyJoin_pySplit '/' rest]

/-- Witness for C7: the documentation's own example prefix `/v1/dev/admin`
in front of a logical path. -/
theorem extract_actual_path_spec_witness :
    extract_actual_path
        ("/" ++ "v1" ++ "/" ++ "dev" ++ "/" ++ "admin" ++ "/" ++ "agents/agent/123")
      = "/" ++ "agents/agent/123" :=
  extract_actual_path_spec "v1" "dev" "admin" "agents/agent/123"
    (by decide) (by decide) (by decide)

/-- C1 (code bug): the access-matrix entry for `/ai4edu_testing` allows only
`system_admin`, yet a requester whose verified claims carry
`system_admin = true` is rejected: `extract_role` emits the key `admin`
while the matrix keys are the `PersonType` literals, so
`access_roles.get("admin", False)` is always false and `has_access` denies;
the full gate then answers the generic 401 instead of admitting. -/
theorem system_admin_locked_out :
    extract_role (some ⟨1, "Ada", "Lovelace", "al1", [], true, false,
        "ada@case.edu", 0, 1800⟩) = ⟨true, false, true⟩ ∧
    lookupMap endpoint_access_map "/ai4edu_testing"
      = some ⟨false, false, true, false⟩ ∧
    has_access endpoint_access_map ⟨true, false, true⟩ "/ai4edu_testing" = false ∧
    dispatch [] "/v1/dev/admin/ai4edu_testing"
      (some (.signed ⟨some "1", some "ada@case.edu", some "Ada", some "Lovelace",
        some "al1", some [], some true, some false, some 0, some 1800⟩)) 0
      = .rejectedUnauthorized := by
  refine ⟨rfl, by decide, by decide, by decide⟩

/-- C2 (code bug): the payload built by `jwt_generator` has no
`workspace_admin` key, and `parse_jwt` reads that key unconditionally inside
its `try`, so every generator-produced payload parses to `None`; adding the
key is the only change needed to make the same payload parse. -/
theorem parse_jwt_requires_workspace_admin :
    (jwt_payload "12" "Ada" "Lovelace" "al1" [("ws1", "student")] false
        "ada@case.edu" 1000).workspace_admin = none ∧
    parse_jwt (jwt_payload "12" "Ada" "Lovelace" "al1" [("ws1", "student")]
        false "ada@case.edu" 1000) = none ∧
    parse_jwt { jwt_payload "12" "Ada" "Lovelace" "al1" [("ws1", "student")]
          false "ada@case.edu" 1000 with workspace_admin := some false }
      = some ⟨12, "Ada", "Lovelace", "al1", [("ws1", "student")], false, false,
          "ada@case.edu", 1000, 2800⟩ := by
  refine ⟨rfl, rfl, by decide⟩

/-- C6: a dynamic access-matrix pattern matches a logical path iff both
split on `/` into equally many segments and every pattern segment without a
brace equals the corresponding path segment; the documented
`/agents/agent/\x7bagent_id\x7d` examples behave accordingly; and an exact
key match is consulted in preference to any templated pattern (`has_access`
never scans patterns when the path is a key of the map). -/
theorem path_match_spec :
    (∀ endpoint_pattern current_path : String,
      endpoint_pattern.data.contains braceChar = true →
      (pattern_matches endpoint_pattern current_path = true ↔
        ((pySplit '/' endpoint_pattern).length
            = (pySplit '/' current_path).length ∧
         ∀ pq ∈ (pySplit '/' endpoint_pattern).zip (pySplit '/' current_path),
           braceChar ∉ pq.1.data → pq.1 = pq.2))) ∧
    pattern_matches "/agents/agent/{agent_id}" "/agents/agent/123" = true ∧
    pattern_matches "/agents/agent/{agent_id}" "/agents/agent/abc-def" = true ∧
    pattern_matches "/agents/agent/{agent_id}" "/agents/agent/123/extra" = false ∧
    (∀ (m : AccessMap) (user_access : Role) (current_path : String)
        (entry : AccessRoles),
      lookupMap m current_path = some entry →
      has_access m user_access current_path = roleAllows entry user_access) := by
  refine ⟨?_, by decide, by decide, by decide, ?_⟩
  · intro pat path _
    simp only [pattern_matches, segMatches, Bool.and_eq_true, beq_iff_eq,
      List.all_eq_true]
    constructor
    · rintro ⟨hlen, hall⟩
      refine ⟨hlen, fun pq hpq hnb => ?_⟩
      have h := hall pq hpq
      simp only [Bool.or_eq_true, beq_iff_eq] at h
      rcases h with hb | he
      · exact absurd (by simpa using hb) hnb
      · exact he
    · rintro ⟨hlen, hall⟩
      refine ⟨hlen, fun pq hpq => ?_⟩
      by_cases hb : braceChar ∈ pq.1.data
      · simp [hb]
      · simp [hb, hall pq hpq hb]
  · intro m user_access current_path entry h
    unfold has_access
    rw [h]

/-- Witness for C6: the iff at the template pattern and a fresh path, and
the exact-match preference on a one-entry matrix. -/
theorem path_match_spec_witness :
    (pattern_matches "/agents/agent/{agent_id}" "/agents/agent/xyz" = true ↔
      ((pySplit '/' "/agents/agent/{agent_id}").length
          = (pySplit '/' "/agents/agent/xyz").length ∧
       ∀ pq ∈ (pySplit '/' "/agents/agent/{agent_id}").zip
           (pySplit '/' "/agents/agent/xyz"),
         braceChar ∉ pq.1.data → pq.1 = pq.2)) ∧
    has_access [("/sso", ⟨true, true, true, false⟩)] ⟨false, false, true⟩ "/sso"
      = roleAllows ⟨true, true, true, false⟩ ⟨false, false, true⟩ :=
  ⟨path_match_spec.1 "/agents/agent/{agent_id}" "/agents/agent/xyz" (by decide),
   path_match_spec.2.2.2.2 [("/sso", ⟨true, true, true, false⟩)]
     ⟨false, false, true⟩ "/sso" ⟨true, true, true, false⟩ (by decide)⟩

/-- C4: `parse_token` is total and three-way distinguishing: its status code
is always one of 401000 (exactly when the input is the empty token), 401001
(validly signed but past expiry), 401002 (malformed or badly signed), or 200
with `success` and the decoded claims. -/
theorem parse_token_trichotomy (t : TokenString) (now : Nat) :
    ((parse_token t now).status_code = 401000 ∨
     (parse_token t now).status_code = 401001 ∨
     (parse_token t now).status_code = 401002 ∨
     ((parse_token t now).success = true ∧
      (parse_token t now).status_code = 200)) ∧
    ((parse_token t now).status_code = 401000 ↔
      (t = .empty ∧ (parse_token t now).message = "Token missing")) ∧
    (∀ s, t = .garbage s →
      (parse_token t now).status_code = 401002 ∧
      (parse_token t now).message = "Invalid token") ∧
    (∀ p e, t = .signed p → p.exp = some e → e ≤ now →
      (parse_token t now).status_code = 401001 ∧
      (parse_token t now).message = "Token has expired") ∧
    (∀ p e, t = .signed p → p.exp = some e → now < e →
      (parse_token t now).success = true ∧
      (parse_token t now).data = some p) ∧
    ((parse_token t now).success = true →
      ∃ p, t = .signed p ∧ (parse_token t now).data = some p) := by
  cases t with
  | empty => simp [parse_token]
  | garbage s => simp [parse_token, jwt_decode]
  | signed p =>
    rcases hexp : p.exp with _ | e
    · simp only [parse_token, jwt_decode, hexp]
      refine ⟨by simp, by simp, by simp, fun p' e hp' he' _ => ?_,
        fun p' e hp' he' _ => by cases hp'; simp,
        fun _ => ⟨p, rfl, by simp⟩⟩
      cases hp'
      simp [hexp] at he'
    · by_cases hle : e ≤ now
      · simp only [parse_token, jwt_decode, hexp, if_pos hle]
        refine ⟨by simp, by simp, by simp, fun p' e' hp' he' _ => by simp,
          fun p' e' hp' he' hlt => ?_, by simp⟩
        cases hp'
        simp [hexp] at he'
        omega
      · simp only [parse_token, jwt_decode, hexp, if_neg hle]
        refine ⟨by simp, by simp, by simp,
          fun p' e' hp' he' hle' => ?_,
          fun p' e' hp' he' _ => by cases hp'; simp,
          fun _ => ⟨p, rfl, by simp⟩⟩
        cases hp'
        simp [hexp] at he'
        omega

/-- Witness for C4: a garbage input yields 401002 with the invalid-token
message, and the empty input yields 401000. -/
theorem parse_token_trichotomy_witness :
    ((parse_token (.garbage "not-a-jwt") 5).status_code = 401002 ∧
     (parse_token (.garbage "not-a-jwt") 5).message = "Invalid token") ∧
    (parse_token .empty 5).status_code = 401000 :=
  ⟨(parse_token_trichotomy (.garbage "not-a-jwt") 5).2.2.1 "not-a-jwt" rfl,
   (parse_token_trichotomy .empty 5).2.1.mpr ⟨rfl, rfl⟩⟩

/-- C3: round trip of the token codec — decoding a token issued by
`jwt_generator` at any time before its expiry succeeds and returns exactly
the issued claims. -/
theorem token_roundtrip (user_id first_name last_name student_id : String)
    (workspace_role : List (String × String)) (system_admin : Bool)
    (email : String) (now t : Nat) (hfuture : t < now + 1800) :
    parse_token (jwt_generator user_id first_name last_name student_id
        workspace_role system_admin email now) t
      = { success := true, status_code := 200, message := "",
          data := some (jwt_payload user_id first_name last_name student_id
            workspace_role system_admin email now) } := by
  have hnot : ¬ (now + 1800 ≤ t) := Nat.not_le.mpr hfuture
  simp [parse_token, jwt_generator, jwt_decode, jwt_payload, hnot]

/-- Witness for C3: a concrete issuance at time 100 decoded at time 900. -/
theorem token_roundtrip_witness :
    parse_token (jwt_generator "12" "Ada" "Lovelace" "al1" [("ws1", "teacher")]
        false "ada@case.edu" 100) 900
      = { success := true, status_code := 200, message := "",
          data := some (jwt_payload "12" "Ada" "Lovelace" "al1"
            [("ws1", "teacher")] false "ada@case.edu" 100) } :=
  token_roundtrip "12" "Ada" "Lovelace" "al1" [("ws1", "teacher")] false
    "ada@case.edu" 100 900 (by decide)

theorem isPrefixOf_append_self (l1 l2 : List Char) :
    l1.isPrefixOf (l1 ++ l2) = true := by
  induction l1 with
  | nil => simp [List.isPrefixOf]
  | cons a as ih => simp [List.isPrefixOf, ih]

theorem eq_of_data_eq {s t : String} (h : s.data = t.data) : s = t := by
  cases s with
  | mk d =>
    cases t with
    | mk e => exact congrArg String.mk h

theorem pySplit_pair (sep : Char) (x y : String) (hx : sep ∉ x.data)
    (hy : sep ∉ y.data) :
    pySplit sep (x ++ String.mk [sep] ++ y) = [x, y] := by
  rw [pySplit_append_sep, pySplit_of_not_mem _ _ hx, pySplit_of_not_mem _ _ hy]
  rfl

theorem foldlM_pair {f : Tokens → String → Option Tokens} {i s1 s2 : Tokens}
    {p1 p2 : String} (h1 : f i p1 = some s1) (h2 : f s1 p2 = some s2) :
    [p1, p2].foldlM f i = some s2 := by
  simp [List.foldlM, h1, h2]

theorem foldlM_single {f : Tokens → String → Option Tokens} {i : Tokens}
    {p1 : String} (h1 : f i p1 = none) :
    [p1].foldlM f i = none := by
  simp [List.foldlM, h1]

theorem processPair_keyval (st : Tokens) (key v : String)
    (hk : '=' ∉ key.data) (hv : '=' ∉ v.data) :
    processPair st (key ++ String.mk ['='] ++ v)
      = (if key = "access" then
           some { st with access_token := if v = "" then none else some v }
         else if key = "refresh" then
           some { st with refresh_token := if v = "" then none else some v }
         else some st) := by
  have hdata : (key ++ String.mk ['='] ++ v).data = key.data ++ '=' :: v.data := by
    simp [String.data_append]
  have hcont : (key ++ String.mk ['='] ++ v).data.contains '=' = true := by
    rw [hdata]; simp
  simp only [processPair, hcont, if_true, pySplit_pair '=' key v hk hv]

theorem extract_token_bearer (x : String) :
    extract_token ("Bearer " ++ x)
      = (pySplit '&' x).foldlM processPair ⟨none, none⟩ := by
  have hdata : ("Bearer " ++ x).data = "Bearer ".data ++ x.data :=
    String.data_append _ _
  have hpre : "Bearer ".data.isPrefixOf ("Bearer " ++ x).data = true := by
    rw [hdata]; exact isPrefixOf_append_self _ _
  have hdrop : String.mk (("Bearer " ++ x).data.drop 7) = x := by
    rw [hdata, List.drop_left' (by decide)]
  simp only [extract_token, hpre, if_true, hdrop]

/-- Counterexample to C8: Python's `key, value = pair.split("=")` splits on
every `=`, not only the first one, and a pair with two `=` characters makes
the tuple unpacking raise `ValueError`, which `extract_token` does not
catch — modelled by `none`. -/
theorem extract_token_double_equals_throws :
    extract_token "Bearer access=a=b" = none := by decide

/-- C8 (amended): for `Bearer` headers whose `&`-separated pairs each carry
at most one `=`, `extract_token` returns the access and refresh values
independently, each `None` when its key is missing or its value is empty,
and a non-`Bearer` header yields two `None`s; but a pair whose value itself
contains `=` is split at every `=` and the two-variable unpacking fails, so
the call raises instead of returning. -/
theorem extract_token_spec :
    (∀ a b : String, '&' ∉ a.data → '=' ∉ a.data → '&' ∉ b.data → '=' ∉ b.data →
      extract_token ("Bearer " ++ ("access" ++ String.mk ['='] ++ a)
          ++ String.mk ['&'] ++ ("refresh" ++ String.mk ['='] ++ b))
        = some ⟨if a = "" then none else some a,
                if b = "" then none else some b⟩) ∧
    (∀ v w : String, '&' ∉ v.data → '=' ∉ v.data → '&' ∉ w.data →
      extract_token ("Bearer " ++ ("access" ++ String.mk ['=']
          ++ (v ++ String.mk ['='] ++ w))) = none) ∧
    extract_token "Bearer access=abc&refresh=def"
      = some ⟨some "abc", some "def"⟩ ∧
    extract_token "Bearer access=abc" = some ⟨some "abc", none⟩ ∧
    extract_token "Bearer refresh=def" = some ⟨none, some "def"⟩ ∧
    extract_token "Bearer access=&refresh=def" = some ⟨none, some "def"⟩ ∧
    extract_token "token abc" = some ⟨none, none⟩ := by
  refine ⟨?_, ?_, by decide, by decide, by decide, by decide, by decide⟩
  · intro a b ha1 ha2 hb1 hb2
    have hassoc : "Bearer " ++ ("access" ++ String.mk ['='] ++ a)
        ++ String.mk ['&'] ++ ("refresh" ++ String.mk ['='] ++ b)
        = "Bearer " ++ (("access" ++ String.mk ['='] ++ a)
          ++ String.mk ['&'] ++ ("refresh" ++ String.mk ['='] ++ b)) := by
      apply eq_of_data_eq
      simp [String.data_append]
    have hp1 : '&' ∉ ("access" ++ String.mk ['='] ++ a).data := by
      intro hmem
      rw [show ("access" ++ String.mk ['='] ++ a).data
          = "access=".data ++ a.data by simp [String.data_append]] at hmem
      rcases List.mem_append.mp hmem with h | h
      · exact absurd h (by decide)
      · exact ha1 h
    have hp2 : '&' ∉ ("refresh" ++ String.mk ['='] ++ b).data := by
      intro hmem
      rw [show ("refresh" ++ String.mk ['='] ++ b).data
          = "refresh=".data ++ b.data by simp [String.data_append]] at hmem
      rcases List.mem_append.mp hmem with h | h
      · exact absurd h (by decide)
      · exact hb1 h
    have e1 : processPair ⟨none, none⟩ ("access" ++ String.mk ['='] ++ a)
        = some ⟨if a = "" then none else some a, none⟩ := by
      rw [processPair_keyval ⟨none, none⟩ "access" a (by decide) ha2]
      simp
    have e2 : processPair ⟨if a = "" then none else some a, none⟩
          ("refresh" ++ String.mk ['='] ++ b)
        = some ⟨if a = "" then none else some a,
                if b = "" then none else some b⟩ := by
      rw [processPair_keyval _ "refresh" b (by decide) hb2]
      simp
    rw [hassoc, extract_token_bearer, pySplit_pair '&' _ _ hp1 hp2]
    exact foldlM_pair e1 e2
  · intro v w hv1 hv2 hw1
    have hdataX : ("access" ++ String.mk ['=']
        ++ (v ++ String.mk ['='] ++ w)).data
        = "access=".data ++ (v.data ++ '=' :: w.data) := by
      simp [String.data_append]
    have hnoamp : '&' ∉ ("access" ++ String.mk ['=']
        ++ (v ++ String.mk ['='] ++ w)).data := by
      intro hmem
      rw [hdataX] at hmem
      rcases List.mem_append.mp hmem with h | h
      · exact absurd h (by decide)
      · rcases List.mem_append.mp (by
          simpa using h : '&' ∈ v.data ++ '=' :: w.data) with h' | h'
        · exact hv1 h'
        · rcases List.mem_cons.mp h' with h'' | h''
          · exact absurd h'' (by decide)
          · exact hw1 h''
    have hcont : ("access" ++ String.mk ['=']
        ++ (v ++ String.mk ['='] ++ w)).data.contains '=' = true := by
      rw [hdataX]; simp
    have hsplit : pySplit '=' ("access" ++ String.mk ['=']
        ++ (v ++ String.mk ['='] ++ w))
        = "access" :: v :: pySplit '=' w := by
      rw [pySplit_append_sep, pySplit_append_sep,
        pySplit_of_not_mem '=' "access" (by decide),
        pySplit_of_not_mem '=' v hv2]
      rfl
    obtain ⟨w1, rest, hw⟩ :=
      List.exists_cons_of_ne_nil (splitCharAux_ne_nil '=' w.data [])
    have hpp : processPair ⟨none, none⟩ ("access" ++ String.mk ['=']
        ++ (v ++ String.mk ['='] ++ w)) = none := by
      simp only [processPair, hcont, if_true, hsplit]
      rw [show pySplit '=' w = w1 :: rest from hw]
    rw [extract_token_bearer, pySplit_of_not_mem '&' _ hnoamp]
    exact foldlM_single hpp

/-- Witness for C8: a concrete header carrying both an access and a refresh
value. -/
theorem extract_token_spec_witness :
    extract_token ("Bearer " ++ ("access" ++ String.mk ['='] ++ "abc")
        ++ String.mk ['&'] ++ ("refresh" ++ String.mk ['='] ++ "def"))
      = some ⟨if "abc" = "" then none else some "abc",
              if "def" = "" then none else some "def"⟩ :=
  extract_token_spec.1 "abc" "def" (by decide) (by decide) (by decide)
    (by decide)

/-- C9: revocation is terminal — after `user_logout_all_devices` at time
`t0`, redeeming a refresh value owned by that user fails at every later time
and leaves the store unchanged; every credential row survives with its token
value (only its expiry was lowered to `t0`); and a second logout at any
later time changes nothing. -/
theorem revoke_all_terminal (st : DbState) (uid : Nat) (tok : String)
    (t0 t1 t2 : Nat)
    (hmem : ∃ r ∈ st.refresh_tokens, r.token = tok)
    (howner : ∀ r ∈ st.refresh_tokens, r.token = tok → r.user_id = uid)
    (h01 : t0 ≤ t1) (h02 : t0 ≤ t2) :
    gen_access_token (user_logout_all_devices st uid t0) tok t1
      = (none, user_logout_all_devices st uid t0) ∧
    (user_logout_all_devices st uid t0).refresh_tokens.map RefreshTokenRow.token
      = st.refresh_tokens.map RefreshTokenRow.token ∧
    (∃ r ∈ (user_logout_all_devices st uid t0).refresh_tokens,
      r.token = tok ∧ r.expire_at ≤ t0) ∧
    user_logout_all_devices (user_logout_all_devices st uid t0) uid t2
      = user_logout_all_devices st uid t0 := by
  obtain ⟨r0, hr0mem, hr0tok⟩ := hmem
  have hfindSome : (st.refresh_tokens.find? (fun r => r.token == tok)).isSome :=
    List.find?_isSome.mpr ⟨r0, hr0mem, by simp [hr0tok]⟩
  obtain ⟨row0, hfind⟩ := Option.isSome_iff_exists.mp hfindSome
  have hrow0mem : row0 ∈ st.refresh_tokens := List.mem_of_find?_eq_some hfind
  have hrow0tok : row0.token = tok := by simpa using List.find?_some hfind
  have hrow0uid : row0.user_id = uid := howner row0 hrow0mem hrow0tok
  have hmapfind :
      (user_logout_all_devices st uid t0).refresh_tokens.find?
          (fun r => r.token == tok)
        = some (if row0.user_id = uid ∧ t0 < row0.expire_at
            then { row0 with expire_at := t0 } else row0) := by
    show (st.refresh_tokens.map _).find? _ = _
    rw [List.find?_map]
    have hco : ((fun r : RefreshTokenRow => r.token == tok) ∘ fun r =>
        if r.user_id = uid ∧ t0 < r.expire_at then { r with expire_at := t0 }
        else r) = fun r : RefreshTokenRow => r.token == tok := by
      funext r
      by_cases h : r.user_id = uid ∧ t0 < r.expire_at <;> simp [h]
    rw [hco, hfind]
    rfl
  have hexpvalue : (if row0.user_id = uid ∧ t0 < row0.expire_at
      then { row0 with expire_at := t0 } else row0).expire_at ≤ t0 := by
    by_cases h : row0.user_id = uid ∧ t0 < row0.expire_at
    · simp [h]
    · rw [if_neg h]
      have : ¬ t0 < row0.expire_at := fun hlt => h ⟨hrow0uid, hlt⟩
      omega
  refine ⟨?_, ?_, ?_, ?_⟩
  · simp only [gen_access_token, hmapfind]
    rw [if_neg (by omega)]
  · show ((st.refresh_tokens.map _).map RefreshTokenRow.token) = _
    rw [List.map_map]
    apply List.map_congr_left
    intro r _
    by_cases h : r.user_id = uid ∧ t0 < r.expire_at <;> simp [h]
  · refine ⟨if row0.user_id = uid ∧ t0 < row0.expire_at
        then { row0 with expire_at := t0 } else row0,
      List.mem_map_of_mem _ hrow0mem, ?_, hexpvalue⟩
    by_cases h : row0.user_id = uid ∧ t0 < row0.expire_at <;>
      simp [h, hrow0tok]
  · show DbState.mk st.users _ = DbState.mk st.users _
    refine congrArg (DbState.mk st.users) ?_
    show ((st.refresh_tokens.map _).map _) = st.refresh_tokens.map _
    rw [List.map_map]
    apply List.map_congr_left
    intro r _
    by_cases h : r.user_id = uid ∧ t0 < r.expire_at
    · simp only [Function.comp_apply, if_pos h]
      exact if_neg fun hc => by
        have hlt : t2 < t0 := hc.2
        omega
    · simp only [Function.comp_apply, if_neg h]
      by_cases hu : r.user_id = uid
      · have hle : r.expire_at ≤ t0 := by
          by_contra hgt
          exact h ⟨hu, by omega⟩
        exact if_neg fun hc => by
          have hlt : t2 < r.expire_at := hc.2
          omega
      · exact if_neg fun hc => hu hc.1

/-- Witness for C9: a one-credential store; logout at time 10, redemption
attempt at 20, second logout at 30. -/
theorem revoke_all_terminal_witness :
    gen_access_token (user_logout_all_devices
        ⟨[⟨7, "Ada", "Lovelace", "ada@case.edu", "al1", [], false⟩],
         [⟨"tid1", 7, "RT1", 0, 1296000, 0⟩]⟩ 7 10) "RT1" 20
      = (none, user_logout_all_devices
          ⟨[⟨7, "Ada", "Lovelace", "ada@case.edu", "al1", [], false⟩],
           [⟨"tid1", 7, "RT1", 0, 1296000, 0⟩]⟩ 7 10) :=
  (revoke_all_terminal
    ⟨[⟨7, "Ada", "Lovelace", "ada@case.edu", "al1", [], false⟩],
     [⟨"tid1", 7, "RT1", 0, 1296000, 0⟩]⟩ 7 "RT1" 10 20 30
    ⟨⟨"tid1", 7, "RT1", 0, 1296000, 0⟩, by simp, rfl⟩
    (by
      intro r hr _
      simp at hr
      simp [hr])
    (by omega) (by omega)).1

/-- C10: redemption assembles claims fresh — on a valid unexpired credential,
`gen_access_token` mints a session token whose claim fields are exactly the
owning user's row as it stands at redemption time, leaves the user table
untouched, and increments the matched credential's issued count by exactly
one while every other row is unchanged. -/
theorem redeem_reads_fresh_identity (st : DbState) (tok : String) (now : Nat)
    (row : RefreshTokenRow) (user : UserRow)
    (hfind : st.refresh_tokens.find? (fun r => r.token == tok) = some row)
    (hexp : now < row.expire_at)
    (huser : st.users.find? (fun u => u.user_id == row.user_id) = some user) :
    (gen_access_token st tok now).1
      = some (.signed (jwt_payload (toString row.user_id) user.first_name
          user.last_name user.student_id user.workspace_role user.system_admin
          user.email now)) ∧
    (gen_access_token st tok now).2.users = st.users ∧
    (∃ l1 l2, st.refresh_tokens = l1 ++ row :: l2 ∧
      (gen_access_token st tok now).2.refresh_tokens
        = l1 ++ { row with issued_token_count := row.issued_token_count + 1 }
            :: l2) := by
  obtain ⟨l1, l2, hdecomp, hclean⟩ := find?_decomp _ _ _ hfind
  have hrowtok : row.token = tok := by simpa using List.find?_some hfind
  have hinc : incrementFirst tok st.refresh_tokens
      = l1 ++ { row with issued_token_count := row.issued_token_count + 1 }
          :: l2 := by
    rw [hdecomp]
    exact incrementFirst_decomp tok l1 l2 row hrowtok fun x hx => by
      simpa using hclean x hx
  refine ⟨?_, ?_, l1, l2, hdecomp, ?_⟩ <;>
    simp [gen_access_token, hfind, hexp, huser, hinc, jwt_generator]

/-- Witness for C10: a single-user, single-credential store redeemed at
time 5. -/
theorem redeem_reads_fresh_identity_witness :
    (gen_access_token
        ⟨[⟨7, "Ada", "Lovelace", "ada@case.edu", "al1", [("ws1", "teacher")], false⟩],
         [⟨"tid1", 7, "RT1", 0, 1296000, 0⟩]⟩ "RT1" 5).1
      = some (.signed (jwt_payload (toString 7) "Ada" "Lovelace" "al1"
          [("ws1", "teacher")] false "ada@case.edu" 5)) :=
  (redeem_reads_fresh_identity
    ⟨[⟨7, "Ada", "Lovelace", "ada@case.edu", "al1", [("ws1", "teacher")], false⟩],
     [⟨"tid1", 7, "RT1", 0, 1296000, 0⟩]⟩ "RT1" 5
    ⟨"tid1", 7, "RT1", 0, 1296000, 0⟩
    ⟨7, "Ada", "Lovelace", "ada@case.edu", "al1", [("ws1", "teacher")], false⟩
    (by decide) (by decide) (by decide)).1

end Ai4edu
